import Mathlib

/-!
Verification of the opusgenie-di dependency-injection runtime.

The development shallowly embeds the parts of the code base that the
checked properties speak about:

* `AssocList` helpers model Python `dict`s keyed by provider / module name.
* `OgModules` models `ProviderConfig` / `ProviderCollection` and
  `ModuleContextImport` / `ImportCollection` (the `_modules` package).
* `OgScope` models `ScopeManager` (`_core/scope_impl.py`).
* `OgContainer` models `Container` (`_core/container_impl.py`) together
  with the dependency-injector provider semantics it wraps
  (`providers.Singleton` caches its first instance, `providers.Factory`
  constructs afresh on every call, `providers.Resource` caches until
  `shutdown_resources`).
* `OgCtx` models the runtime circular-dependency detection of the
  `Context` resolution engine.
* `OgRegistry` models `GlobalRegistry.get_build_order` (Kahn-style
  topological sort with a circular-dependency error).

Object identity ("the identical instance", Python `is`) is modelled by
tagging every instance produced by a factory invocation with a fresh
natural number drawn from a monotone counter.
-/

/-- Look up the value stored under key `k` in an association list
(first match wins, as in a Python dict rendered as insertion-ordered
key/value pairs). -/
def lookupEntry {α : Type} (l : List (String × α)) (k : String) : Option α :=
  match l with
  | [] => none
  | (k', v) :: t => if k' = k then some v else lookupEntry t k

/-- Store `v` under key `k`: replace the existing entry if the key is
present, otherwise append a new entry (Python `d[k] = v`). -/
def setEntry {α : Type} (l : List (String × α)) (k : String) (v : α) :
    List (String × α) :=
  match l with
  | [] => [(k, v)]
  | (k', v') :: t => if k' = k then (k, v) :: t else (k', v') :: setEntry t k v

/-- Delete every entry stored under key `k` (Python `del d[k]` on the
unique-key representation). -/
def removeEntry {α : Type} (l : List (String × α)) (k : String) :
    List (String × α) :=
  l.filter (fun e => e.1 ≠ k)

namespace OgModules

/-- Outcome of a provider's `conditional` field: absent, a plain boolean,
or a zero-argument callable whose invocation either returns a boolean or
raises (`Except.error`). -/
inductive Conditional : Type
  | none : Conditional
  | bool (b : Bool) : Conditional
  | callable (result : Except String Bool) : Conditional
  deriving Repr

/-- Modelled from the spec: `ProviderConfig` of the `_modules` package
(absent from `src/`): interface, optional implementation, optional
registration name and the `conditional` activation field. -/
structure ProviderConfig : Type where
  interface : String
  implementation : Option String := Option.none
  name : Option String := Option.none
  conditional : Conditional := Conditional.none
  deriving Repr

/-- Modelled from the spec: `get_provider_name()` returns `name` if set
else the interface's type name. -/
def ProviderConfig.get_provider_name (c : ProviderConfig) : String :=
  c.name.getD c.interface

/-- Modelled from the spec: `evaluate_condition()`: no condition → true;
boolean → itself; callable → its result, any raised error → false
(fail-safe-closed). -/
def ProviderConfig.evaluate_condition (c : ProviderConfig) : Bool :=
  match c.conditional with
  | Conditional.none => true
  | Conditional.bool b => b
  | Conditional.callable (Except.ok b) => b
  | Conditional.callable (Except.error _) => false

/-- Modelled from the spec: `ProviderCollection`, an ordered sequence of
`ProviderConfig` keyed by provider name for duplicate suppression. -/
structure ProviderCollection : Type where
  providers : List ProviderConfig := []
  deriving Repr

/-- Modelled from the spec: first registration wins; later registrations
with the same provider name are silently ignored. -/
def ProviderCollection.add_provider (col : ProviderCollection)
    (c : ProviderConfig) : ProviderCollection :=
  if col.providers.any
      (fun p => p.get_provider_name = c.get_provider_name) then col
  else ⟨col.providers ++ [c]⟩

/-- Modelled from the spec: `ModuleContextImport` — a cross-context import
request with component type, source context name, optional name and
optional local alias. -/
structure ModuleContextImport : Type where
  component_type : String
  from_context : String
  name : Option String := Option.none
  local_alias : Option String := Option.none
  required : Bool := true
  deriving Repr, DecidableEq

/-- Modelled from the spec: `get_provider_name()` = name or component
type name. -/
def ModuleContextImport.get_provider_name (i : ModuleContextImport) : String :=
  i.name.getD i.component_type

/-- Modelled from the spec: `get_import_key()` =
`"\x7bfrom_context\x7d:\x7bprovider_name\x7d"`, the uniqueness key. -/
def ModuleContextImport.get_import_key (i : ModuleContextImport) : String :=
  i.from_context ++ ":" ++ i.get_provider_name

/-- Modelled from the spec: `ImportCollection`, an ordered sequence of
imports deduplicated by import key. -/
structure ImportCollection : Type where
  imports : List ModuleContextImport := []
  deriving Repr, DecidableEq

/-- Modelled from the spec: deduplicated by import key (first wins). -/
def ImportCollection.add_import (col : ImportCollection)
    (i : ModuleContextImport) : ImportCollection :=
  if col.imports.any (fun j => j.get_import_key = i.get_import_key) then col
  else ⟨col.imports ++ [i]⟩

end OgModules

/-- Component lifecycle scopes of `_base.ComponentScope` (`SINGLETON`,
`TRANSIENT`, `SCOPED`, `FACTORY`). -/
inductive ComponentScope : Type
  | singleton : ComponentScope
  | transient : ComponentScope
  | scoped : ComponentScope
  | factory : ComponentScope
  deriving Repr, DecidableEq

namespace OgScope

/-- Modelled from the spec: `ScopeManager` state (`scope_impl.py` is
absent from `src/`): a singleton table, a stack of scope frames (the
innermost open frame is at the head of the list) and a counter supplying
the identity tag of the next instance a factory invocation creates. -/
structure ScopeManager : Type where
  singletons : List (String × Nat) := []
  scope_stack : List (List (String × Nat)) := []
  next_instance : Nat := 0
  deriving Repr, DecidableEq

/-- Freshly constructed `ScopeManager`: no singletons, no open frame. -/
def ScopeManager.init : ScopeManager := {}

/-- Modelled from the spec: `create_or_get_instance(key, scope, factory)`.
Singleton: return the cached instance without invoking the factory, else
invoke once, store, return.  Transient (and factory): always invoke.
Scoped: with no open frame behave exactly like transient (documented
fallback); with an open frame behave like singleton within the innermost
frame.  The returned number is the identity of the instance handed back;
a fresh number means the factory was invoked. -/
def ScopeManager.create_or_get_instance (sm : ScopeManager) (key : String)
    (scope : ComponentScope) : Nat × ScopeManager :=
  match scope with
  | ComponentScope.singleton =>
    match lookupEntry sm.singletons key with
    | some i => (i, sm)
    | none =>
      (sm.next_instance,
       { sm with
          singletons := sm.singletons ++ [(key, sm.next_instance)],
          next_instance := sm.next_instance + 1 })
  | ComponentScope.transient =>
    (sm.next_instance, { sm with next_instance := sm.next_instance + 1 })
  | ComponentScope.factory =>
    (sm.next_instance, { sm with next_instance := sm.next_instance + 1 })
  | ComponentScope.scoped =>
    match sm.scope_stack with
    | [] =>
      (sm.next_instance, { sm with next_instance := sm.next_instance + 1 })
    | frame :: rest =>
      match lookupEntry frame key with
      | some i => (i, sm)
      | none =>
        (sm.next_instance,
         { sm with
            scope_stack := (frame ++ [(key, sm.next_instance)]) :: rest,
            next_instance := sm.next_instance + 1 })

/-- Modelled from the spec: entering `create_scope()` pushes a new, empty
frame. -/
def ScopeManager.enter_scope (sm : ScopeManager) : ScopeManager :=
  { sm with scope_stack := [] :: sm.scope_stack }

/-- Modelled from the spec: leaving `create_scope()` pops the innermost
frame and discards its cache. -/
def ScopeManager.exit_scope (sm : ScopeManager) : ScopeManager :=
  { sm with scope_stack := sm.scope_stack.tail }

/-- Modelled from the spec: `has_active_scope()` is true iff the frame
stack is non-empty. -/
def ScopeManager.has_active_scope (sm : ScopeManager) : Bool :=
  !sm.scope_stack.isEmpty

/-- Modelled from the spec: `clear_all` / `dispose()` clears all state;
subsequent calls behave as if the manager were newly constructed (the
identity counter is retained so that later instances stay distinguishable
from disposed ones). -/
def ScopeManager.clear_all (sm : ScopeManager) : ScopeManager :=
  { singletons := [], scope_stack := [], next_instance := sm.next_instance }

/-- Identity tags of every instance currently cached by the manager
(singleton table and every open frame). -/
def ScopeManager.storedIds (sm : ScopeManager) : List Nat :=
  sm.singletons.map Prod.snd ++ (sm.scope_stack.map (fun f => f.map Prod.snd)).flatten

/-- Well-formedness: every cached identity tag was drawn from the counter,
hence is strictly below its current value. -/
def ScopeManager.WF (sm : ScopeManager) : Prop :=
  ∀ i ∈ sm.storedIds, i < sm.next_instance

end OgScope

namespace OgContainer

/-- State of one dependency-injector provider installed by
`Container.register` (`container_impl.py`): the scope it was registered
under (which decided between `providers.Singleton`, `providers.Factory`
and `providers.Resource`), the cached instance for the caching provider
kinds, and how many times the wrapped factory/class has been invoked. -/
structure DIProvider : Type where
  scope : ComponentScope
  cache : Option Nat := none
  calls : Nat := 0
  deriving Repr, DecidableEq

/-- Whether the dependency-injector provider kind chosen for this scope
caches its instance (`providers.Singleton` and `providers.Resource` do;
`providers.Factory` — used for transient and factory scope — does not). -/
def DIProvider.caches (p : DIProvider) : Bool :=
  match p.scope with
  | ComponentScope.singleton => true
  | ComponentScope.scoped => true
  | ComponentScope.transient => false
  | ComponentScope.factory => false

/-- `ComponentMetadata` tracked per registration in
`Container._component_metadata`. -/
structure ComponentMetadata : Type where
  component_type : String
  component_name : String
  scope : ComponentScope
  context_name : String
  provider_name : String
  deriving Repr, DecidableEq

/-- Errors of `_core/exceptions.py` raised by the container paths under
study. -/
inductive ContainerError : Type
  | componentResolutionError (component_type : String) (details : String)
  deriving Repr, DecidableEq

/-- `Container` state (`container_impl.py`): name, wrapped
dependency-injector provider table, metadata table, registration counter,
the owned scope manager, and the counter supplying identity tags of
freshly constructed instances. -/
structure Container : Type where
  name : String := "default"
  providers : List (String × DIProvider) := []
  component_metadata : List (String × ComponentMetadata) := []
  registration_count : Nat := 0
  scope_manager : OgScope.ScopeManager := OgScope.ScopeManager.init
  next_instance : Nat := 0
  deriving Repr, DecidableEq

/-- `Container.register`: install a provider of the kind selected by
`scope` under `name or interface.__name__`, then store metadata under the
same key and bump the registration counter.  A freshly installed caching
provider has no cached instance yet and has not invoked its factory. -/
def Container.register (c : Container) (interface : String)
    (implementation : Option String := none) (scope : ComponentScope)
    (name : Option String := none) : Container :=
  let impl_class := implementation.getD interface
  let provider_name := name.getD interface
  { c with
      providers := setEntry c.providers provider_name
        { scope := scope, cache := none, calls := 0 },
      component_metadata := setEntry c.component_metadata provider_name
        { component_type := impl_class,
          component_name := provider_name,
          scope := scope,
          context_name := c.name,
          provider_name := provider_name },
      registration_count := c.registration_count + 1 }

/-- `Container.resolve`: fail with `ComponentResolutionError` when
`provider_name` is not in the provider table; otherwise call the
dependency-injector provider: a caching provider returns its cached
instance without invoking the factory, and any provider without a cached
instance invokes the factory, yielding a fresh instance that caching
providers then store. -/
def Container.resolve (c : Container) (interface : String)
    (name : Option String := none) :
    Except ContainerError (Nat × Container) :=
  let provider_name := name.getD interface
  match lookupEntry c.providers provider_name with
  | none =>
    Except.error (ContainerError.componentResolutionError interface
      ("Component " ++ provider_name ++ " not registered in container "
        ++ c.name))
  | some p =>
    match p.cache with
    | some i =>
      if p.caches then Except.ok (i, c)
      else
        Except.ok (c.next_instance,
          { c with
              providers := setEntry c.providers provider_name
                { p with calls := p.calls + 1 },
              next_instance := c.next_instance + 1 })
    | none =>
      Except.ok (c.next_instance,
        { c with
            providers := setEntry c.providers provider_name
              { p with
                  cache := if p.caches then some c.next_instance else none,
                  calls := p.calls + 1 },
            next_instance := c.next_instance + 1 })

/-- `Container.resolve_async`: delegates to the synchronous resolution
path (the source body is `return self.resolve(interface, name)`). -/
def Container.resolve_async (c : Container) (interface : String)
    (name : Option String := none) :
    Except ContainerError (Nat × Container) :=
  Container.resolve c interface name

/-- `Container.is_registered`: membership of the resolved provider name in
the provider table. -/
def Container.is_registered (c : Container) (interface : String)
    (name : Option String := none) : Bool :=
  (lookupEntry c.providers (name.getD interface)).isSome

/-- `Container.get_metadata`: raise `ComponentResolutionError` when the
resolved provider name has no metadata entry, else return it. -/
def Container.get_metadata (c : Container) (interface : String)
    (name : Option String := none) :
    Except ContainerError ComponentMetadata :=
  let provider_name := name.getD interface
  match lookupEntry c.component_metadata provider_name with
  | none =>
    Except.error (ContainerError.componentResolutionError interface
      ("Component " ++ provider_name ++ " not registered"))
  | some m => Except.ok m

/-- `Container.unregister`: return `False` leaving the container untouched
when the resolved provider name is absent; otherwise delete the provider
entry and its metadata and return `True`. -/
def Container.unregister (c : Container) (interface : String)
    (name : Option String := none) : Bool × Container :=
  let provider_name := name.getD interface
  match lookupEntry c.providers provider_name with
  | none => (false, c)
  | some _ =>
    (true,
     { c with
        providers := removeEntry c.providers provider_name,
        component_metadata := removeEntry c.component_metadata provider_name })

/-- `Container.clear`: reset singletons, drop every provider and all
metadata, zero the registration counter and clear the scope manager. -/
def Container.clear (c : Container) : Container :=
  { c with
      providers := [],
      component_metadata := [],
      registration_count := 0,
      scope_manager := OgScope.ScopeManager.clear_all c.scope_manager }

/-- Effect of `shutdown_resources` on one provider: a `providers.Resource`
(scoped registration) is shut down, losing its cached instance; the other
provider kinds are untouched — in particular a `providers.Singleton`
keeps its cached instance. -/
def DIProvider.shutdown_resource (p : DIProvider) : DIProvider :=
  match p.scope with
  | ComponentScope.scoped => { p with cache := none }
  | _ => p

/-- `Container.shutdown`: run `shutdown_resources` over the provider
table, clear the scope manager, clear metadata and zero the registration
counter — the provider table itself (and with it every registration and
every cached singleton) survives. -/
def Container.shutdown (c : Container) : Container :=
  { c with
      providers :=
        c.providers.map (fun e => (e.1, DIProvider.shutdown_resource e.2)),
      component_metadata := [],
      registration_count := 0,
      scope_manager := OgScope.ScopeManager.clear_all c.scope_manager }

/-- `Container.get_registration_count`: size of the provider table. -/
def Container.get_registration_count (c : Container) : Nat :=
  c.providers.length

end OgContainer

namespace OgCtx

/-- Errors raised by the `Context` resolution engine: the
circular-dependency error carrying the full dependency chain, and the
component-not-registered resolution error. -/
inductive CtxError : Type
  | circular (dependency_chain : List String) : CtxError
  | notRegistered (name : String) : CtxError
  | fuelExhausted : CtxError
  deriving Repr, DecidableEq

/-- Modelled from the spec: a `Context` provider table for the runtime
circular-dependency scenario (`context_impl.py` is absent from `src/`):
each provider name is mapped to the list of provider names its custom
factory resolves from the same context, in call order. -/
structure Ctx : Type where
  providers : List (String × List String) := []
  deriving Repr, DecidableEq

mutual

/-- Modelled from the spec: resolution tracks the chain of types currently
being constructed; if resolving a type re-enters resolution of a type
already in the in-flight chain, it fails at that re-entry point with a
`CircularDependencyError` whose payload is the full chain.  Otherwise the
provider's factory runs, resolving each of its dependencies in turn with
the current type appended to the chain.  `fuel` bounds the recursion
depth; `Ctx.resolve` supplies enough for the chain check to fire first. -/
def resolveChain (ctx : Ctx) (fuel : Nat) (chain : List String)
    (key : String) : Except CtxError Unit :=
  match fuel with
  | 0 => Except.error CtxError.fuelExhausted
  | fuel' + 1 =>
    if key ∈ chain then Except.error (CtxError.circular (chain ++ [key]))
    else
      match lookupEntry ctx.providers key with
      | none => Except.error (CtxError.notRegistered key)
      | some deps => resolveDeps ctx fuel' (chain ++ [key]) deps

/-- Resolve each dependency requested by a factory, in order, propagating
the first error. -/
def resolveDeps (ctx : Ctx) (fuel : Nat) (chain : List String)
    (deps : List String) : Except CtxError Unit :=
  match deps with
  | [] => Except.ok ()
  | d :: ds =>
    match resolveChain ctx fuel chain d with
    | Except.error e => Except.error e
    | Except.ok _ => resolveDeps ctx fuel chain ds

end

/-- Modelled from the spec: `Context.resolve` starts a resolution with an
empty in-flight chain.  Any cycle re-enters within `providers.length + 1`
nested resolutions, so that much fuel suffices for the detector. -/
def Ctx.resolve (ctx : Ctx) (key : String) : Except CtxError Unit :=
  resolveChain ctx (ctx.providers.length + 1) [] key

end OgCtx

namespace OgRegistry

/-- Modelled from the spec: the part of `ModuleMetadata` that determines
the dependency graph — the module name, the `from_context` of each of its
declared imports, and its exports. -/
structure ModuleMetadata : Type where
  name : String
  imports : List String := []
  exports : List String := []
  deriving Repr, DecidableEq

/-- Modelled from the spec: `GlobalRegistry` holds the declared modules in
registration order, keyed by unique name. -/
structure GlobalRegistry : Type where
  modules : List ModuleMetadata := []
  deriving Repr, DecidableEq

/-- Names of all registered modules, in registration order. -/
def GlobalRegistry.names (reg : GlobalRegistry) : List String :=
  reg.modules.map (fun m => m.name)

/-- Modelled from the spec: `register_module` inserts or overwrites by
name. -/
def GlobalRegistry.register_module (reg : GlobalRegistry)
    (metadata : ModuleMetadata) : GlobalRegistry :=
  if reg.modules.any (fun m => m.name = metadata.name) then
    ⟨reg.modules.map (fun m => if m.name = metadata.name then metadata else m)⟩
  else ⟨reg.modules ++ [metadata]⟩

/-- A module is ready to be placed in the build order once every
dependency edge out of it points at an already placed module.  An import
yields an edge exactly when its source context differs from the module
itself and names a registered module. -/
def moduleReady (names done : List String) (m : ModuleMetadata) : Bool :=
  m.imports.all (fun d => decide (d = m.name ∨ d ∉ names ∨ d ∈ done))

/-- Modelled from the spec: Kahn-style topological sort.  Each pass places
every module all of whose dependencies are already placed; a pass that
places nothing while modules remain reports the circular dependency. -/
def buildOrderAux (names : List String) (fuel : Nat)
    (remaining : List ModuleMetadata) (done : List String) :
    Except String (List String) :=
  match fuel with
  | 0 => Except.error "Circular dependencies detected between modules"
  | fuel' + 1 =>
    match remaining with
    | [] => Except.ok done
    | _ :: _ =>
      let ready := remaining.filter (moduleReady names done)
      if ready.isEmpty then
        Except.error "Circular dependencies detected between modules"
      else
        buildOrderAux names fuel'
          (remaining.filter (fun m => !moduleReady names done m))
          (done ++ ready.map (fun m => m.name))

/-- Modelled from the spec: `get_build_order()` — deterministic
topological sort over the import-derived dependency graph, raising a
cycle-identifying error when no order exists. -/
def GlobalRegistry.get_build_order (reg : GlobalRegistry) :
    Except String (List String) :=
  buildOrderAux reg.names (reg.modules.length + 1) reg.modules []

/-- Dependency edge of the import-derived graph: `Edge reg a b` holds when
the registered module named `a` declares an import whose `from_context`
is the distinct registered module name `b`. -/
def Edge (reg : GlobalRegistry) (a b : String) : Prop :=
  ∃ m, m ∈ reg.modules ∧ m.name = a ∧ b ∈ m.imports ∧ b ≠ a ∧ b ∈ reg.names

/-- A dependency cycle: some module reaches itself through one or more
dependency edges. -/
def HasCycle (reg : GlobalRegistry) : Prop :=
  ∃ n, Relation.TransGen (Edge reg) n n

/-- Occurrence order within a build order: `a` strictly precedes `b`. -/
def before (l : List String) (a b : String) : Prop :=
  a ∈ l ∧ b ∈ l ∧ l.indexOf a < l.indexOf b

/-- Registry of the simple build-order unit test: `module2` imports from
`module1`. -/
def exampleRegistry : GlobalRegistry :=
  ⟨[{ name := "module1" }, { name := "module2", imports := ["module1"] }]⟩

/-- Registry of the circular-dependency unit test: `module1` and
`module2` import from each other. -/
def exampleCycleRegistry : GlobalRegistry :=
  ⟨[{ name := "module1", imports := ["module2"] },
    { name := "module2", imports := ["module1"] }]⟩

end OgRegistry
theorem lookupEntry_setEntry_self {α : Type} (l : List (String × α)) (k : String)
    (v : α) : lookupEntry (setEntry l k v) k = some v := by
  induction l with
  | nil => simp [setEntry, lookupEntry]
  | cons e t ih =>
    obtain ⟨k', v'⟩ := e
    by_cases h : k' = k
    · simp [setEntry, lookupEntry, h]
    · simp [setEntry, lookupEntry, h, ih]

theorem lookupEntry_removeEntry_self {α : Type} (l : List (String × α))
    (k : String) : lookupEntry (removeEntry l k) k = none := by
  induction l with
  | nil => simp [removeEntry, lookupEntry]
  | cons e t ih =>
    obtain ⟨k', v'⟩ := e
    by_cases h : k' = k
    · simpa [removeEntry, lookupEntry, h] using ih
    · simpa [removeEntry, lookupEntry, h] using ih

theorem lookupEntry_mapValue {α β : Type} (g : α → β) (l : List (String × α))
    (k : String) :
    lookupEntry (l.map (fun e => (e.1, g e.2))) k = (lookupEntry l k).map g := by
  induction l with
  | nil => simp [lookupEntry]
  | cons e t ih =>
    obtain ⟨k', v'⟩ := e
    by_cases h : k' = k
    · simp [lookupEntry, h]
    · simp [lookupEntry, h, ih]


namespace OgModules

/-- C7: for every `ProviderConfig`, `evaluate_condition()` returns true
when `conditional` is absent, returns the boolean itself when it is a
boolean, returns the callable's result when the callable returns
normally, and returns false — not a propagated exception — when the
callable raises. -/
theorem evaluate_condition_cases (c : ProviderConfig) :
    (c.conditional = Conditional.none → c.evaluate_condition = true) ∧
    (∀ b, c.conditional = Conditional.bool b → c.evaluate_condition = b) ∧
    (∀ b, c.conditional = Conditional.callable (Except.ok b) →
      c.evaluate_condition = b) ∧
    (∀ e, c.conditional = Conditional.callable (Except.error e) →
      c.evaluate_condition = false) := by
  refine ⟨?_, ?_, ?_, ?_⟩ <;> intro h
  · simp [ProviderConfig.evaluate_condition, h]
  · intro hb
    simp [ProviderConfig.evaluate_condition, hb]
  · intro hb
    simp [ProviderConfig.evaluate_condition, hb]
  · intro he
    simp [ProviderConfig.evaluate_condition, he]

/-- Concrete instance of `evaluate_condition_cases`: a provider whose
condition callable raises evaluates to false rather than propagating. -/
theorem evaluate_condition_cases_witness :
    ProviderConfig.evaluate_condition
      { interface := "MockComponent",
        conditional := Conditional.callable (Except.error "Condition failed") }
      = false :=
  (evaluate_condition_cases _).2.2.2 "Condition failed" rfl

/-- C8: adding two imports with the same import key to one
`ImportCollection` leaves a collection of length 1 retaining the first
import, and adding two `ProviderConfig`s with the same provider name to
one `ProviderCollection` retains only the first, silently ignoring the
second. -/
theorem duplicate_suppression (i₁ i₂ : ModuleContextImport)
    (p₁ p₂ : ProviderConfig)
    (hi : i₂.get_import_key = i₁.get_import_key)
    (hp : p₂.get_provider_name = p₁.get_provider_name) :
    (((ImportCollection.mk []).add_import i₁).add_import i₂).imports = [i₁] ∧
    (((ProviderCollection.mk []).add_provider p₁).add_provider p₂).providers
      = [p₁] := by
  constructor
  · simp [ImportCollection.add_import, hi]
  · simp [ProviderCollection.add_provider, hp]

/-- Concrete instance of `duplicate_suppression`: two imports of
`MockComponent` from `source_context` collapse to one, and two providers
named `test` collapse to one. -/
theorem duplicate_suppression_witness :
    (((ImportCollection.mk []).add_import
        { component_type := "MockComponent",
          from_context := "source_context" }).add_import
        { component_type := "MockComponent",
          from_context := "source_context" }).imports
      = [{ component_type := "MockComponent",
           from_context := "source_context" }] ∧
    (((ProviderCollection.mk []).add_provider
        { interface := "MockComponent", name := some "test" }).add_provider
        { interface := "TestComponent", name := some "test" }).providers
      = [{ interface := "MockComponent", name := some "test" }] :=
  duplicate_suppression _ _ _ _ rfl rfl

end OgModules

namespace OgScope

/-- C3: for every `ScopeManager` and key resolved with scope `SCOPED`:
with no open scope frame each call yields a fresh instance distinct from
every previously created one (transient fallback); two calls inside one
open frame return the identical instance; a call inside a nested inner
frame returns an instance distinct from the outer frame's cached one;
and after the inner frame exits, a call returns the outer frame's cached
instance again. -/
theorem scoped_lifetime (sm : ScopeManager) (key : String) :
    (sm.scope_stack = [] →
      let r₁ := sm.create_or_get_instance key ComponentScope.scoped
      let r₂ := r₁.2.create_or_get_instance key ComponentScope.scoped
      r₁.1 ≠ r₂.1 ∧ (sm.WF → ∀ i ∈ sm.storedIds, r₁.1 ≠ i)) ∧
    (let outer := sm.enter_scope.create_or_get_instance key
        ComponentScope.scoped
     let again := outer.2.create_or_get_instance key ComponentScope.scoped
     let inner := outer.2.enter_scope.create_or_get_instance key
        ComponentScope.scoped
     let after := inner.2.exit_scope.create_or_get_instance key
        ComponentScope.scoped
     again.1 = outer.1 ∧ inner.1 ≠ outer.1 ∧ after.1 = outer.1) := by
  obtain ⟨sing, stack, n⟩ := sm
  constructor
  · intro hstack
    simp only at hstack
    subst hstack
    refine ⟨by simp [ScopeManager.create_or_get_instance], ?_⟩
    intro hwf i hi
    have hlt : i < n := hwf i hi
    show n ≠ i
    omega
  · simp [ScopeManager.create_or_get_instance, ScopeManager.enter_scope,
      ScopeManager.exit_scope, lookupEntry]

/-- Concrete instance of `scoped_lifetime` on a freshly constructed
manager, with every hypothesis discharged. -/
theorem scoped_lifetime_witness :
    (let r₁ := ScopeManager.init.create_or_get_instance "MockComponent"
        ComponentScope.scoped
     let r₂ := r₁.2.create_or_get_instance "MockComponent"
        ComponentScope.scoped
     r₁.1 ≠ r₂.1 ∧ ∀ i ∈ ScopeManager.init.storedIds, r₁.1 ≠ i) ∧
    (let outer := ScopeManager.init.enter_scope.create_or_get_instance
        "MockComponent" ComponentScope.scoped
     let again := outer.2.create_or_get_instance "MockComponent"
        ComponentScope.scoped
     let inner := outer.2.enter_scope.create_or_get_instance "MockComponent"
        ComponentScope.scoped
     let after := inner.2.exit_scope.create_or_get_instance "MockComponent"
        ComponentScope.scoped
     again.1 = outer.1 ∧ inner.1 ≠ outer.1 ∧ after.1 = outer.1) := by
  have h := scoped_lifetime ScopeManager.init "MockComponent"
  have h₁ := h.1 rfl
  exact ⟨⟨h₁.1, h₁.2 (by intro i hi; simp [ScopeManager.storedIds,
    ScopeManager.init] at hi)⟩, h.2⟩

end OgScope

namespace OgContainer

theorem resolve_of_lookup_none (c : Container) (interface : String)
    (name : Option String)
    (h : lookupEntry c.providers (name.getD interface) = none) :
    c.resolve interface name =
      Except.error (ContainerError.componentResolutionError interface
        ("Component " ++ name.getD interface ++ " not registered in container "
          ++ c.name)) := by
  simp only [Container.resolve, h]

theorem resolve_of_cached (c : Container) (interface : String)
    (name : Option String) (p : DIProvider) (i : Nat)
    (h : lookupEntry c.providers (name.getD interface) = some p)
    (hcache : p.cache = some i) (hcaches : p.caches = true) :
    c.resolve interface name = Except.ok (i, c) := by
  simp only [Container.resolve, h, hcache, hcaches, if_true]

theorem resolve_of_uncached (c : Container) (interface : String)
    (name : Option String) (p : DIProvider)
    (h : lookupEntry c.providers (name.getD interface) = some p)
    (hcache : p.cache = none) :
    c.resolve interface name =
      Except.ok (c.next_instance,
        { c with
            providers := setEntry c.providers (name.getD interface)
              { p with
                  cache := if p.caches then some c.next_instance else none,
                  calls := p.calls + 1 },
            next_instance := c.next_instance + 1 }) := by
  simp only [Container.resolve, h, hcache]

theorem register_lookup_self (c : Container) (interface : String)
    (implementation : Option String) (scope : ComponentScope)
    (name : Option String) :
    lookupEntry (c.register interface implementation scope name).providers
        (name.getD interface)
      = some { scope := scope, cache := none, calls := 0 } := by
  simp only [Container.register]
  exact lookupEntry_setEntry_self _ _ _

/-- C4: for every component registered under singleton scope, two
resolutions of the same key in the same container return the identical
instance, with the wrapped factory invoked exactly once overall — the
second resolution returns the cached instance without a further
invocation. -/
theorem singleton_resolution (c : Container) (interface : String)
    (implementation name : Option String) :
    ∃ v c₂,
      (c.register interface implementation ComponentScope.singleton
          name).resolve interface name = Except.ok (v, c₂) ∧
      (lookupEntry c₂.providers (name.getD interface)).map DIProvider.calls
        = some 1 ∧
      c₂.resolve interface name = Except.ok (v, c₂) := by
  set c₁ := c.register interface implementation ComponentScope.singleton name
    with hc₁
  have h₀ := register_lookup_self c interface implementation
    ComponentScope.singleton name
  rw [← hc₁] at h₀
  have h₁ := resolve_of_uncached c₁ interface name _ h₀ rfl
  refine ⟨c₁.next_instance, _, h₁, ?_, ?_⟩
  · simp only [DIProvider.caches]
    rw [lookupEntry_setEntry_self]
    rfl
  · refine resolve_of_cached _ interface name
      { scope := ComponentScope.singleton,
        cache := some c₁.next_instance, calls := 1 } c₁.next_instance ?_ rfl rfl
    simpa [DIProvider.caches] using
      lookupEntry_setEntry_self c₁.providers (name.getD interface)
        { scope := ComponentScope.singleton,
          cache := some c₁.next_instance, calls := 1 }

/-- C5: for every component registered under transient scope, two
resolutions of the same key return distinct instances, and every
resolution invokes the factory (two resolutions, two invocations). -/
theorem transient_resolution (c : Container) (interface : String)
    (implementation name : Option String) :
    ∃ v₁ c₂ v₂ c₃,
      (c.register interface implementation ComponentScope.transient
          name).resolve interface name = Except.ok (v₁, c₂) ∧
      c₂.resolve interface name = Except.ok (v₂, c₃) ∧
      v₁ ≠ v₂ ∧
      (lookupEntry c₂.providers (name.getD interface)).map DIProvider.calls
        = some 1 ∧
      (lookupEntry c₃.providers (name.getD interface)).map DIProvider.calls
        = some 2 := by
  set c₁ := c.register interface implementation ComponentScope.transient name
    with hc₁
  have h₀ := register_lookup_self c interface implementation
    ComponentScope.transient name
  rw [← hc₁] at h₀
  have h₁ := resolve_of_uncached c₁ interface name _ h₀ rfl
  set p₁ : DIProvider :=
    { scope := ComponentScope.transient, cache := none, calls := 1 } with hp₁
  set c₂ : Container :=
    { c₁ with
        providers := setEntry c₁.providers (name.getD interface) p₁,
        next_instance := c₁.next_instance + 1 } with hc₂
  have h₁' : c₁.resolve interface name = Except.ok (c₁.next_instance, c₂) := by
    rw [h₁, hc₂, hp₁]
    simp [DIProvider.caches]
  have h₂' : lookupEntry c₂.providers (name.getD interface) = some p₁ := by
    rw [hc₂]
    exact lookupEntry_setEntry_self _ _ _
  have h₂ := resolve_of_uncached c₂ interface name p₁ h₂' rfl
  refine ⟨c₁.next_instance, c₂, c₂.next_instance, _, h₁', h₂, ?_, ?_, ?_⟩
  · have : c₂.next_instance = c₁.next_instance + 1 := by rw [hc₂]
    omega
  · rw [h₂', hp₁]
    rfl
  · rw [lookupEntry_setEntry_self, hp₁]
    rfl

end OgContainer

namespace OgContainer

/-- C6: after `shutdown()`, registrations survive (`is_registered` stays
true and `resolve` of the same key succeeds), a singleton instance
created before the shutdown is still the instance a subsequent `resolve`
returns, and shutdown is not equivalent to `clear()` — after `clear()`
the same key is no longer registered. -/
theorem shutdown_preserves_registrations (c : Container) (interface : String)
    (implementation name : Option String) :
    ∃ v c₂,
      (c.register interface implementation ComponentScope.singleton
          name).resolve interface name = Except.ok (v, c₂) ∧
      c₂.shutdown.is_registered interface name = true ∧
      c₂.shutdown.resolve interface name = Except.ok (v, c₂.shutdown) ∧
      c₂.clear.is_registered interface name = false := by
  set c₁ := c.register interface implementation ComponentScope.singleton name
    with hc₁
  have h₀ := register_lookup_self c interface implementation
    ComponentScope.singleton name
  rw [← hc₁] at h₀
  have h₁ := resolve_of_uncached c₁ interface name _ h₀ rfl
  set p₁ : DIProvider :=
    { scope := ComponentScope.singleton, cache := some c₁.next_instance,
      calls := 1 } with hp₁
  set c₂ : Container :=
    { c₁ with
        providers := setEntry c₁.providers (name.getD interface) p₁,
        next_instance := c₁.next_instance + 1 } with hc₂
  have h₁' : c₁.resolve interface name = Except.ok (c₁.next_instance, c₂) := by
    rw [h₁, hc₂, hp₁]
    simp [DIProvider.caches]
  have h₂' : lookupEntry c₂.providers (name.getD interface) = some p₁ := by
    rw [hc₂]
    exact lookupEntry_setEntry_self _ _ _
  have hsd : lookupEntry c₂.shutdown.providers (name.getD interface)
      = some p₁ := by
    simp only [Container.shutdown]
    rw [lookupEntry_mapValue, h₂', hp₁]
    rfl
  refine ⟨c₁.next_instance, c₂, h₁', ?_, ?_, ?_⟩
  · simp [Container.is_registered, hsd]
  · exact resolve_of_cached _ interface name p₁ c₁.next_instance hsd rfl rfl
  · simp [Container.is_registered, Container.clear, lookupEntry]

/-- C9: `resolve_async` delegates to the synchronous resolution path: it
returns exactly what `resolve` returns and fails exactly when `resolve`
fails. -/
theorem resolve_async_delegates (c : Container) (interface : String)
    (name : Option String) :
    c.resolve_async interface name = c.resolve interface name := rfl

/-- C10: `unregister` returns `False` and leaves the container unchanged
when no provider is registered under the resolved provider name; when one
is registered it returns `True` and removes both the provider entry and
its metadata, so that `is_registered` becomes false and `get_metadata`
for the same key fails with `ComponentResolutionError`. -/
theorem unregister_removes_provider_and_metadata (c : Container)
    (interface : String) (name : Option String) :
    (lookupEntry c.providers (name.getD interface) = none →
      c.unregister interface name = (false, c)) ∧
    (∀ p, lookupEntry c.providers (name.getD interface) = some p →
      (c.unregister interface name).1 = true ∧
      (c.unregister interface name).2.is_registered interface name = false ∧
      (c.unregister interface name).2.get_metadata interface name =
        Except.error (ContainerError.componentResolutionError interface
          ("Component " ++ name.getD interface ++ " not registered"))) := by
  constructor
  · intro h
    simp only [Container.unregister, h]
  · intro p h
    refine ⟨?_, ?_, ?_⟩
    · simp only [Container.unregister, h]
    · simp only [Container.unregister, h, Container.is_registered,
        lookupEntry_removeEntry_self, Option.isSome_none]
    · simp only [Container.unregister, h, Container.get_metadata,
        lookupEntry_removeEntry_self]

/-- Concrete instance of `unregister_removes_provider_and_metadata`: an
empty container reports `False` with unchanged state, and a container
holding one singleton registration removes it cleanly. -/
theorem unregister_removes_provider_and_metadata_witness :
    (Container.unregister {} "MockComponent" none = (false, {})) ∧
    (((Container.register {} "MockComponent" none ComponentScope.singleton
        none).unregister "MockComponent" none).1 = true ∧
      ((Container.register {} "MockComponent" none ComponentScope.singleton
        none).unregister "MockComponent" none).2.is_registered "MockComponent"
        none = false ∧
      ((Container.register {} "MockComponent" none ComponentScope.singleton
        none).unregister "MockComponent" none).2.get_metadata "MockComponent"
        none =
        Except.error (ContainerError.componentResolutionError "MockComponent"
          ("Component " ++ "MockComponent" ++ " not registered"))) :=
  ⟨(unregister_removes_provider_and_metadata {} "MockComponent" none).1 rfl,
   (unregister_removes_provider_and_metadata _ "MockComponent" none).2
     { scope := ComponentScope.singleton, cache := none, calls := 0 }
     (by decide)⟩

end OgContainer

namespace OgCtx

theorem lookupEntry_mem_keys {α : Type} {l : List (String × α)} {k : String}
    {v : α} (h : lookupEntry l k = some v) : k ∈ l.map Prod.fst := by
  induction l with
  | nil => simp [lookupEntry] at h
  | cons e t ih =>
    rw [lookupEntry] at h
    by_cases he : e.1 = k
    · simp [List.map_cons, he.symm]
    · rw [if_neg he] at h
      simp [ih h]

theorem two_mem_two_le_length {α : Type} [DecidableEq α] (l : List α) (a b : α)
    (ha : a ∈ l) (hb : b ∈ l) (hab : a ≠ b) : 2 ≤ l.length := by
  have hcard : 1 < l.toFinset.card :=
    Finset.one_lt_card.mpr
      ⟨a, by simp [ha], b, by simp [hb], hab⟩
  have := l.toFinset_card_le
  omega

theorem resolveChain_two_cycle (ctx : Ctx) (a b : String) (fuel : Nat)
    (ha : lookupEntry ctx.providers a = some [b])
    (hb : lookupEntry ctx.providers b = some [a])
    (hab : a ≠ b) :
    resolveChain ctx (fuel + 3) [] a
      = Except.error (CtxError.circular [a, b, a]) := by
  have h1 : resolveChain ctx (fuel + 3) [] a
      = resolveDeps ctx (fuel + 2) [a] [b] := by
    show resolveChain ctx ((fuel + 2) + 1) [] a = _
    simp [resolveChain, ha]
  have h2 : resolveChain ctx (fuel + 2) [a] b
      = resolveDeps ctx (fuel + 1) [a, b] [a] := by
    show resolveChain ctx ((fuel + 1) + 1) [a] b = _
    simp [resolveChain, hb, Ne.symm hab]
  have h3 : resolveChain ctx (fuel + 1) [a, b] a
      = Except.error (CtxError.circular [a, b, a]) := by
    show resolveChain ctx (fuel + 1) [a, b] a = _
    simp [resolveChain]
  rw [h1]
  simp only [resolveDeps, h2, h3]

/-- C1: for every pair of distinct components `a` and `b` registered in
one context with custom factories that each resolve the other, resolving
`a` fails with a `CircularDependencyError` raised at the point the
in-flight chain is re-entered, whose dependency chain is
`a -> b -> a` and hence contains both components in chain order. -/
theorem circular_dependency_detected (ctx : Ctx) (a b : String)
    (ha : lookupEntry ctx.providers a = some [b])
    (hb : lookupEntry ctx.providers b = some [a])
    (hab : a ≠ b) :
    ctx.resolve a = Except.error (CtxError.circular [a, b, a]) ∧
    a ∈ [a, b, a] ∧ b ∈ [a, b, a] := by
  have hka : a ∈ ctx.providers.map Prod.fst := lookupEntry_mem_keys ha
  have hkb : b ∈ ctx.providers.map Prod.fst := lookupEntry_mem_keys hb
  have hlen : 2 ≤ ctx.providers.length := by
    have := two_mem_two_le_length (ctx.providers.map Prod.fst) a b hka hkb hab
    simpa using this
  obtain ⟨k, hk⟩ : ∃ k, ctx.providers.length + 1 = k + 3 :=
    ⟨ctx.providers.length - 2, by omega⟩
  refine ⟨?_, by simp, by simp⟩
  show resolveChain ctx (ctx.providers.length + 1) [] a = _
  rw [hk]
  exact resolveChain_two_cycle ctx a b k ha hb hab

/-- Concrete instance of `circular_dependency_detected`: `ServiceA` and
`ServiceB` whose factories each resolve the other, matching the unit
test scenario. -/
theorem circular_dependency_detected_witness :
    Ctx.resolve
        ⟨[("ServiceA", ["ServiceB"]), ("ServiceB", ["ServiceA"])]⟩ "ServiceA"
      = Except.error
          (CtxError.circular ["ServiceA", "ServiceB", "ServiceA"]) ∧
    "ServiceA" ∈ ["ServiceA", "ServiceB", "ServiceA"] ∧
    "ServiceB" ∈ ["ServiceA", "ServiceB", "ServiceA"] :=
  circular_dependency_detected _ "ServiceA" "ServiceB" (by decide) (by decide)
    (by decide)

end OgCtx

namespace OgRegistry

theorem length_filter_partition {α : Type} (p : α → Bool) (l : List α) :
    (l.filter p).length + (l.filter (fun a => !p a)).length = l.length := by
  induction l with
  | nil => simp
  | cons x xs ih =>
    by_cases h : p x <;> simp [h] <;> omega

theorem step_length (nm : List String) (rem : List ModuleMetadata)
    (done : List String)
    (hne : (rem.filter (moduleReady nm done)).isEmpty = false) :
    (rem.filter (fun m => !moduleReady nm done m)).length < rem.length := by
  have hlen := length_filter_partition (moduleReady nm done) rem
  have hpos : 0 < (rem.filter (moduleReady nm done)).length := by
    cases hfe : rem.filter (moduleReady nm done) with
    | nil => rw [hfe] at hne; simp [List.isEmpty] at hne
    | cons x xs => simp [hfe]
  omega

theorem step_split (reg : GlobalRegistry) (rem : List ModuleMetadata)
    (done : List String)
    (hsplit : ∀ m ∈ reg.modules, m.name ∈ done ∨ m ∈ rem) :
    ∀ m ∈ reg.modules,
      m.name ∈ done ++ (rem.filter (moduleReady reg.names done)).map
          (fun m => m.name) ∨
      m ∈ rem.filter (fun m => !moduleReady reg.names done m) := by
  intro m hm
  rcases hsplit m hm with h | h
  · exact Or.inl (List.mem_append_left _ h)
  · by_cases hr : moduleReady reg.names done m = true
    · refine Or.inl (List.mem_append_right _ ?_)
      exact List.mem_map_of_mem _ (List.mem_filter.mpr ⟨h, hr⟩)
    · refine Or.inr (List.mem_filter.mpr ⟨h, ?_⟩)
      simp [hr]

theorem step_disjoint (reg : GlobalRegistry) (hnames : reg.names.Nodup)
    (rem : List ModuleMetadata) (done : List String)
    (hsub : rem.Sublist reg.modules)
    (hdisj : ∀ n ∈ done, n ∉ rem.map (fun m => m.name)) :
    ∀ n ∈ done ++ (rem.filter (moduleReady reg.names done)).map
        (fun m => m.name),
      n ∉ (rem.filter (fun m => !moduleReady reg.names done m)).map
        (fun m => m.name) := by
  have hnames' : (reg.modules.map (fun m => m.name)).Nodup := hnames
  have hinj := List.inj_on_of_nodup_map hnames'
  intro n hn hc
  obtain ⟨ms, hms, hmsn⟩ := List.mem_map.mp hc
  obtain ⟨hmsrem, hmsnr⟩ := List.mem_filter.mp hms
  rcases List.mem_append.mp hn with h | h
  · exact hdisj n h (hmsn ▸ List.mem_map_of_mem _ hmsrem)
  · obtain ⟨mr, hmr, hmrn⟩ := List.mem_map.mp h
    obtain ⟨hmrrem, hmrr⟩ := List.mem_filter.mp hmr
    have heq : ms = mr :=
      hinj (hsub.subset hmsrem) (hsub.subset hmrrem) (by rw [hmsn, hmrn])
    rw [heq, hmrr] at hmsnr
    simp at hmsnr

theorem step_nodup (reg : GlobalRegistry) (hnames : reg.names.Nodup)
    (rem : List ModuleMetadata) (done : List String)
    (hsub : rem.Sublist reg.modules)
    (hdisj : ∀ n ∈ done, n ∉ rem.map (fun m => m.name))
    (hnd : done.Nodup) :
    (done ++ (rem.filter (moduleReady reg.names done)).map
      (fun m => m.name)).Nodup := by
  refine hnd.append ?_ ?_
  · have hs : ((rem.filter (moduleReady reg.names done)).map
        (fun m => m.name)).Sublist (reg.modules.map (fun m => m.name)) :=
      ((List.filter_sublist _).trans hsub).map _
    exact hs.nodup hnames
  · intro n hn hc
    obtain ⟨mr, hmr, hmrn⟩ := List.mem_map.mp hc
    exact hdisj n hn (hmrn ▸ List.mem_map_of_mem _
      (List.mem_filter.mp hmr).1)

theorem step_order (reg : GlobalRegistry) (hnames : reg.names.Nodup)
    (rem : List ModuleMetadata) (done : List String)
    (hsub : rem.Sublist reg.modules)
    (hdisj : ∀ n ∈ done, n ∉ rem.map (fun m => m.name))
    (hord : ∀ m ∈ reg.modules, m.name ∈ done →
      ∀ d ∈ m.imports, d ≠ m.name → d ∈ reg.names →
        d ∈ done ∧ done.indexOf d < done.indexOf m.name) :
    ∀ m ∈ reg.modules,
      m.name ∈ done ++ (rem.filter (moduleReady reg.names done)).map
        (fun m => m.name) →
      ∀ d ∈ m.imports, d ≠ m.name → d ∈ reg.names →
        d ∈ done ++ (rem.filter (moduleReady reg.names done)).map
          (fun m => m.name) ∧
        (done ++ (rem.filter (moduleReady reg.names done)).map
          (fun m => m.name)).indexOf d <
        (done ++ (rem.filter (moduleReady reg.names done)).map
          (fun m => m.name)).indexOf m.name := by
  have hnames' : (reg.modules.map (fun m => m.name)).Nodup := hnames
  have hinj := List.inj_on_of_nodup_map hnames'
  intro m hm hmem d hd hne hdin
  rcases List.mem_append.mp hmem with h | h
  · obtain ⟨hddone, hidx⟩ := hord m hm h d hd hne hdin
    refine ⟨List.mem_append_left _ hddone, ?_⟩
    rw [List.indexOf_append_of_mem hddone, List.indexOf_append_of_mem h]
    exact hidx
  · obtain ⟨mr, hmr, hmrn⟩ := List.mem_map.mp h
    obtain ⟨hmrrem, hmrr⟩ := List.mem_filter.mp hmr
    have heqm : mr = m := hinj (hsub.subset hmrrem) hm hmrn
    have hready : moduleReady reg.names done m = true := heqm ▸ hmrr
    have hall := List.all_eq_true.mp hready d hd
    have hcases : d = m.name ∨ d ∉ reg.names ∨ d ∈ done :=
      of_decide_eq_true hall
    have hddone : d ∈ done := by
      rcases hcases with h1 | h1 | h1
      · exact absurd h1 hne
      · exact absurd hdin h1
      · exact h1
    have hmnot : m.name ∉ done := by
      intro hcon
      exact hdisj m.name hcon (List.mem_map_of_mem _ (heqm ▸ hmrrem))
    refine ⟨List.mem_append_left _ hddone, ?_⟩
    rw [List.indexOf_append_of_mem hddone,
      List.indexOf_append_of_not_mem hmnot]
    have := List.indexOf_lt_length.mpr hddone
    omega

theorem exists_transGen_self (r : String → String → Prop)
    (keys : List String) (hne : keys ≠ [])
    (hstep : ∀ a ∈ keys, ∃ b ∈ keys, r a b) :
    ∃ n, Relation.TransGen r n n := by
  have hstep' : ∀ t : {x // x ∈ keys}, ∃ t' : {x // x ∈ keys}, r t.1 t'.1 := by
    intro t
    obtain ⟨b, hb, hr⟩ := hstep t.1 t.2
    exact ⟨⟨b, hb⟩, hr⟩
  choose step hstepp using hstep'
  have ht₀ : keys.head hne ∈ keys := List.head_mem hne
  set g : Nat → {x // x ∈ keys} :=
    fun n => step^[n] ⟨keys.head hne, ht₀⟩ with hg
  have hedge : ∀ n, r (g n).1 (g (n + 1)).1 := by
    intro n
    have : g (n + 1) = step (g n) := by
      rw [hg]
      exact Function.iterate_succ_apply' step n _
    rw [this]
    exact hstepp (g n)
  have hchain : ∀ i k, Relation.TransGen r (g i).1 (g (i + 1 + k)).1 := by
    intro i k
    induction k with
    | zero => exact Relation.TransGen.single (hedge i)
    | succ k ih => exact Relation.TransGen.tail ih (hedge (i + 1 + k))
  have hchain' : ∀ i j, i < j → Relation.TransGen r (g i).1 (g j).1 := by
    intro i j hij
    have : j = i + 1 + (j - i - 1) := by omega
    rw [this]
    exact hchain i (j - i - 1)
  have hcard : keys.toFinset.card < (Finset.univ : Finset (Fin (keys.length + 1))).card := by
    have := keys.toFinset_card_le
    simp only [Finset.card_univ, Fintype.card_fin]
    omega
  obtain ⟨i, -, j, -, hij, heq⟩ :=
    Finset.exists_ne_map_eq_of_card_lt_of_maps_to hcard
      (f := fun i : Fin (keys.length + 1) => (g i.1).1)
      (fun i _ => List.mem_toFinset.mpr (g i.1).2)
  have hij' : i.1 ≠ j.1 := fun hc => hij (Fin.val_injective hc)
  rcases Nat.lt_or_ge i.1 j.1 with hlt | hge
  · refine ⟨(g i.1).1, ?_⟩
    have := hchain' i.1 j.1 hlt
    rwa [← heq] at this
  · have hlt : j.1 < i.1 := by omega
    refine ⟨(g j.1).1, ?_⟩
    have := hchain' j.1 i.1 hlt
    rwa [heq] at this

end OgRegistry

namespace OgRegistry

theorem buildOrderAux_ok_spec (reg : GlobalRegistry) (hnames : reg.names.Nodup) :
    ∀ (fuel : Nat) (remaining : List ModuleMetadata) (done order : List String),
      buildOrderAux reg.names fuel remaining done = Except.ok order →
      remaining.Sublist reg.modules →
      (∀ m ∈ reg.modules, m.name ∈ done ∨ m ∈ remaining) →
      (∀ n ∈ done, n ∉ remaining.map (fun m => m.name)) →
      done.Nodup →
      (∀ m ∈ reg.modules, m.name ∈ done →
        ∀ d ∈ m.imports, d ≠ m.name → d ∈ reg.names →
          d ∈ done ∧ done.indexOf d < done.indexOf m.name) →
      (∀ m ∈ reg.modules, m.name ∈ order) ∧ order.Nodup ∧
      (∀ m ∈ reg.modules, ∀ d ∈ m.imports, d ≠ m.name → d ∈ reg.names →
        d ∈ order ∧ order.indexOf d < order.indexOf m.name) := by
  intro fuel
  induction fuel with
  | zero =>
    intro remaining done order h
    simp [buildOrderAux] at h
  | succ fuel ih =>
    intro remaining done order h hsub hsplit hdisj hnd hord
    match remaining, hsub, hsplit, hdisj with
    | [], hsub, hsplit, hdisj =>
      have hdo : done = order := by
        simpa [buildOrderAux] using h
      subst hdo
      have hcomplete : ∀ m ∈ reg.modules, m.name ∈ done := by
        intro m hm
        rcases hsplit m hm with h' | h'
        · exact h'
        · simp at h'
      exact ⟨hcomplete, hnd,
        fun m hm d hd hne hdin => hord m hm (hcomplete m hm) d hd hne hdin⟩
    | hd₀ :: tl₀, hsub, hsplit, hdisj =>
      rw [buildOrderAux] at h
      by_cases hemp :
          ((hd₀ :: tl₀).filter (moduleReady reg.names done)).isEmpty = true
      · rw [if_pos hemp] at h
        simp at h
      · rw [if_neg hemp] at h
        exact ih _ _ _ h
          ((List.filter_sublist _).trans hsub)
          (step_split reg _ done hsplit)
          (step_disjoint reg hnames _ done hsub hdisj)
          (step_nodup reg hnames _ done hsub hdisj hnd)
          (step_order reg hnames _ done hsub hdisj hord)

theorem buildOrderAux_error_cycle (reg : GlobalRegistry)
    (hnames : reg.names.Nodup) :
    ∀ (fuel : Nat) (remaining : List ModuleMetadata) (done : List String)
      (msg : String),
      buildOrderAux reg.names fuel remaining done = Except.error msg →
      remaining.length < fuel →
      remaining.Sublist reg.modules →
      (∀ m ∈ reg.modules, m.name ∈ done ∨ m ∈ remaining) →
      (∀ n ∈ done, n ∉ remaining.map (fun m => m.name)) →
      HasCycle reg := by
  intro fuel
  induction fuel with
  | zero =>
    intro remaining done msg h hlen
    omega
  | succ fuel ih =>
    intro remaining done msg h hlen hsub hsplit hdisj
    match remaining, hlen, hsub, hsplit, hdisj with
    | [], hlen, hsub, hsplit, hdisj => simp [buildOrderAux] at h
    | hd₀ :: tl₀, hlen, hsub, hsplit, hdisj =>
      rw [buildOrderAux] at h
      by_cases hemp :
          ((hd₀ :: tl₀).filter (moduleReady reg.names done)).isEmpty = true
      · -- no module is ready: every remaining module has an unmet
        -- dependency on another remaining module, which yields a cycle
        have hnil : (hd₀ :: tl₀).filter (moduleReady reg.names done) = [] :=
          List.isEmpty_iff.mp hemp
        have hstuck : ∀ m ∈ hd₀ :: tl₀,
            ¬ moduleReady reg.names done m = true :=
          fun m hm => by simpa using List.filter_eq_nil_iff.mp hnil m hm
        have hstep : ∀ a ∈ (hd₀ :: tl₀).map (fun m => m.name),
            ∃ b ∈ (hd₀ :: tl₀).map (fun m => m.name), Edge reg a b := by
          intro a ha
          obtain ⟨m, hm, rfl⟩ := List.mem_map.mp ha
          have hnr := hstuck m hm
          simp only [moduleReady, List.all_eq_true, decide_eq_true_eq] at hnr
          push_neg at hnr
          obtain ⟨d, hd, hne, hdin, hdnd⟩ := hnr
          obtain ⟨md, hmdmod, hmdname⟩ := List.mem_map.mp hdin
          have hmdrem : md ∈ hd₀ :: tl₀ := by
            rcases hsplit md hmdmod with h' | h'
            · rw [hmdname] at h'
              exact absurd h' hdnd
            · exact h'
          refine ⟨d, ?_, ?_⟩
          · rw [← hmdname]
            exact List.mem_map_of_mem _ hmdrem
          · exact ⟨m, hsub.subset hm, rfl, hd, hne, hdin⟩
        obtain ⟨n, htg⟩ := exists_transGen_self (Edge reg)
          ((hd₀ :: tl₀).map (fun m => m.name)) (by simp) hstep
        exact ⟨n, htg⟩
      · rw [if_neg hemp] at h
        have hlt := step_length reg.names (hd₀ :: tl₀) done
          (Bool.not_eq_true _ ▸ eq_false_of_ne_true hemp)
        exact ih _ _ _ h (by omega)
          ((List.filter_sublist _).trans hsub)
          (step_split reg _ done hsplit)
          (step_disjoint reg hnames _ done hsub hdisj)

end OgRegistry

namespace OgRegistry

/-- C2: for every registered module set with no cycle in the
import-derived dependency graph, `get_build_order()` returns a list in
which every module named as `from_context` by some other module's import
appears before the importing module (and containing every registered
module); for every module set containing a dependency cycle,
`get_build_order()` fails with a circular-dependency error. -/
theorem get_build_order_spec (reg : GlobalRegistry)
    (hnames : reg.names.Nodup) :
    (¬ HasCycle reg →
      ∃ order, reg.get_build_order = Except.ok order ∧
        (∀ m ∈ reg.modules, m.name ∈ order) ∧
        (∀ m ∈ reg.modules, ∀ d ∈ m.imports, d ≠ m.name → d ∈ reg.names →
          before order d m.name)) ∧
    (HasCycle reg → ∃ msg, reg.get_build_order = Except.error msg) := by
  have hinit₂ : ∀ m ∈ reg.modules,
      m.name ∈ ([] : List String) ∨ m ∈ reg.modules := fun m hm => Or.inr hm
  have hinit₃ : ∀ n ∈ ([] : List String),
      n ∉ reg.modules.map (fun m => m.name) := by simp
  cases hres : reg.get_build_order with
  | ok order =>
    obtain ⟨hcomp, hnd, hord⟩ := buildOrderAux_ok_spec reg hnames
      (reg.modules.length + 1) reg.modules [] order hres
      (List.Sublist.refl _) hinit₂ hinit₃ List.nodup_nil
      (by intro m hm h; simp at h)
    constructor
    · intro _
      refine ⟨order, rfl, hcomp, ?_⟩
      intro m hm d hd hne hdin
      obtain ⟨hdo, hidx⟩ := hord m hm d hd hne hdin
      exact ⟨hdo, hcomp m hm, hidx⟩
    · intro hcyc
      exfalso
      obtain ⟨n, htg⟩ := hcyc
      have mono : ∀ a b, Edge reg a b →
          order.indexOf b < order.indexOf a := by
        intro a b he
        obtain ⟨m, hm, hname, hb, hne', hbin⟩ := he
        have hne2 : b ≠ m.name := by rw [hname]; exact hne'
        have h2 := (hord m hm b hb hne2 hbin).2
        rw [hname] at h2
        exact h2
      have htrans : Transitive
          (fun a b : String => order.indexOf b < order.indexOf a) :=
        fun a b c h1 h2 => lt_trans h2 h1
      have h3 := Relation.TransGen.mono mono htg
      rw [Relation.transGen_eq_self htrans] at h3
      exact lt_irrefl _ h3
  | error msg =>
    have hcyc := buildOrderAux_error_cycle reg hnames
      (reg.modules.length + 1) reg.modules [] msg hres (by omega)
      (List.Sublist.refl _) hinit₂ hinit₃
    exact ⟨fun hnot => absurd hcyc hnot, fun _ => ⟨msg, rfl⟩⟩

/-- Concrete instance of `get_build_order_spec`: the acyclic two-module
registry is ordered with `module1` before its importer `module2`, and the
mutually importing registry fails with a circular-dependency error. -/
theorem get_build_order_spec_witness :
    (∃ order, exampleRegistry.get_build_order = Except.ok order ∧
      (∀ m ∈ exampleRegistry.modules, m.name ∈ order) ∧
      (∀ m ∈ exampleRegistry.modules, ∀ d ∈ m.imports, d ≠ m.name →
        d ∈ exampleRegistry.names → before order d m.name)) ∧
    (∃ msg, exampleCycleRegistry.get_build_order = Except.error msg) := by
  constructor
  · refine (get_build_order_spec exampleRegistry (by decide)).1 ?_
    intro hcyc
    obtain ⟨msg, hmsg⟩ :=
      (get_build_order_spec exampleRegistry (by decide)).2 hcyc
    have hok : exampleRegistry.get_build_order
        = Except.ok ["module1", "module2"] := by rfl
    rw [hok] at hmsg
    simp at hmsg
  · refine (get_build_order_spec exampleCycleRegistry (by decide)).2 ?_
    have e12 : Edge exampleCycleRegistry "module1" "module2" := by
      refine ⟨{ name := "module1", imports := ["module2"] }, ?_, rfl, ?_, ?_, ?_⟩
      · simp [exampleCycleRegistry]
      · simp
      · decide
      · decide
    have e21 : Edge exampleCycleRegistry "module2" "module1" := by
      refine ⟨{ name := "module2", imports := ["module1"] }, ?_, rfl, ?_, ?_, ?_⟩
      · simp [exampleCycleRegistry]
      · simp
      · decide
      · decide
    exact ⟨"module1", Relation.TransGen.tail (Relation.TransGen.single e12) e21⟩

end OgRegistry
